import Mathlib

/-!
Shallow embedding of `openfpga/src/fpga_bitstream/write_text_fabric_bitstream.cpp`
(namespace `openfpga`): the plain-text fabric-bitstream serializer with its four
protocol encoders (standalone/flatten, configuration chain, memory bank,
frame-based) and the top-level router `write_fabric_bitstream_to_text_file`.

The destination `std::fstream` is modelled as a `FileStream`: a validity flag
(`valid_file_stream`) plus the character content written so far; a write on an
invalid stream is a no-op, matching a C++ stream with its failbit set.
Fabric bits are modelled as records carrying the data the writer reads from
`BitstreamManager`/`FabricBitstream`: the bit value, the BL/WL address
character sequences (memory bank), the single address character sequence
(frame-based), and the configuration-region id (configuration chain).
-/

namespace OpenFPGA

/-- The configuration-protocol selector `e_config_protocol_type`.
`invalid` stands for any enum value outside the four recognized
protocols (the `default:` arm of the C++ switches). -/
inductive EConfigProtocolType
  | standalone
  | scanChain
  | memoryBank
  | frameBased
  | invalid
  deriving DecidableEq, Repr

/-- One fabric configuration bit together with every annotation the writer
reads from it: `value` is `bitstream_manager.bit_value(config_bit(...))`,
`blAddr`/`wlAddr` are `bit_bl_address`/`bit_wl_address`, `addr` is
`bit_address`, and `region` is the configuration region the bit belongs to. -/
structure FabricBit where
  value : Bool
  blAddr : List Char
  wlAddr : List Char
  addr : List Char
  region : Nat
  deriving DecidableEq, Repr

/-- The destination stream: validity (`valid_file_stream`) and content. -/
structure FileStream where
  valid : Bool
  content : List Char
  deriving DecidableEq, Repr

/-- `fp << x`: appends when the stream is valid, otherwise does nothing. -/
def fsWrite (fp : FileStream) (s : List Char) : FileStream :=
  if fp.valid then { fp with content := fp.content ++ s } else fp

/-- How `operator<<` prints a `bool` (no `boolalpha`): `'1'` or `'0'`. -/
def bitChar (b : Bool) : Char := if b then '1' else '0'

/-- `write_fabric_config_bit_to_text_file` (lines 38-82): writes a single
configuration bit in the shape selected by `config_type`, returning the new
stream and the status code (1 on an invalid stream or an unrecognized
protocol type, 0 otherwise). -/
def write_fabric_config_bit_to_text_file (fp : FileStream) (b : FabricBit)
    (config_type : EConfigProtocolType) : FileStream × Nat :=
  if fp.valid = false then
    (fp, 1)
  else
    match config_type with
    | .standalone
    | .scanChain => (fsWrite fp [bitChar b.value], 0)
    | .memoryBank =>
        (fsWrite fp (b.blAddr ++ [' '] ++ b.wlAddr ++ [' ']
          ++ [bitChar b.value] ++ ['\n']), 0)
    | .frameBased =>
        (fsWrite fp (b.addr ++ [' '] ++ [bitChar b.value] ++ ['\n']), 0)
    | .invalid => (fp, 1)

/-- `write_flatten_fabric_bitstream_to_text_file` (lines 92-109): writes every
bit of the source in order through `write_fabric_config_bit_to_text_file`,
stopping with status 1 as soon as one write reports it. -/
def write_flatten_fabric_bitstream_to_text_file (fp : FileStream)
    (bits : List FabricBit) (config_type : EConfigProtocolType) :
    FileStream × Nat :=
  match bits with
  | [] => (fp, 0)
  | b :: rest =>
      let r := write_fabric_config_bit_to_text_file fp b config_type
      if r.2 = 1 then r
      else write_flatten_fabric_bitstream_to_text_file r.1 rest config_type

/-- The distinct keys of a list in first-encountered order. -/
def firstSeenKeys {κ : Type} [DecidableEq κ] (ks : List κ) : List κ :=
  ks.foldl (fun acc k => if k ∈ acc then acc else acc ++ [k]) []

/-- The region ids occurring in the bit source, in first-encountered order. -/
def regionIds (bits : List FabricBit) : List Nat :=
  firstSeenKeys (bits.map (fun b => b.region))

/-- Modelled from the spec: `find_fabric_regional_bitstream_max_size`
(declared in `fabric_bitstream_utils.h`, implementation not under `src/`).
Spec §4.3 step (2): `maxLen` = length of the longest region, where a region
is the ordered sub-sequence of source bits belonging to one scan chain. -/
def find_fabric_regional_bitstream_max_size (bits : List FabricBit) : Nat :=
  ((regionIds bits).map
    (fun r => ((bits.filter (fun b => b.region = r)).length))).foldl max 0

/-- Modelled from the spec: `build_config_chain_fabric_bitstream_by_region`
(declared in `fabric_bitstream_utils.h`, implementation not under `src/`).
Spec §4.3 steps (1)-(3): partition the bit source into its ordered regions
(region order = first-encountered order, bit order within a region = source
order), then pad every region at the tail with filler `0` bits up to the
length of the longest region. -/
def build_config_chain_fabric_bitstream_by_region (bits : List FabricBit) :
    List (List Bool) :=
  (regionIds bits).map (fun r =>
    ((bits.filter (fun b => b.region = r)).map (fun b => b.value)) ++
      List.replicate (find_fabric_regional_bitstream_max_size bits -
          ((bits.filter (fun b => b.region = r)).map (fun b => b.value)).length)
        false)

/-- `write_config_chain_fabric_bitstream_to_text_file` (lines 119-136):
for each depth index `ibit` below the regional maximum size, writes one
character per region followed by `std::endl`; always returns status 0. -/
def write_config_chain_fabric_bitstream_to_text_file (fp : FileStream)
    (bits : List FabricBit) : FileStream × Nat :=
  ((List.range (find_fabric_regional_bitstream_max_size bits)).foldl (fun f i =>
      fsWrite ((build_config_chain_fabric_bitstream_by_region bits).foldl
        (fun g r => fsWrite g [bitChar (r.getD i false)]) f) ['\n']) fp, 0)

/-- Appends `v` to the data vector of key `k`, creating the group at the end
on first encounter (insertion-ordered association list). -/
def insertGrouped {κ : Type} [DecidableEq κ]
    (acc : List (κ × List Bool)) (k : κ) (v : Bool) : List (κ × List Bool) :=
  match acc with
  | [] => [(k, [v])]
  | (k0, vs) :: rest =>
      if k0 = k then (k0, vs ++ [v]) :: rest
      else (k0, vs) :: insertGrouped rest k v

/-- Modelled from the spec: `build_memory_bank_fabric_bitstream_by_address`
(declared in `fabric_bitstream_utils.h`, implementation not under `src/`).
Spec §4.4 steps (1)-(2): scan the bit source in order, appending each bit's
value to the data vector of its (BL, WL) address pair, creating the group on
first encounter; groups are kept in first-encountered order. -/
def build_memory_bank_fabric_bitstream_by_address (bits : List FabricBit) :
    List ((List Char × List Char) × List Bool) :=
  bits.foldl (fun acc b => insertGrouped acc (b.blAddr, b.wlAddr) b.value) []

/-- Modelled from the spec: `build_frame_based_fabric_bitstream_by_address`
(declared in `fabric_bitstream_utils.h`, implementation not under `src/`).
Spec §4.4 steps (1)-(2) with the single-address key shape. -/
def build_frame_based_fabric_bitstream_by_address (bits : List FabricBit) :
    List (List Char × List Bool) :=
  bits.foldl (fun acc b => insertGrouped acc b.addr b.value) []

/-- `write_memory_bank_fabric_bitstream_to_text_file` (lines 146-170):
for each address/data pair, writes the BL address, a space, the WL address,
a space, the data values, then `std::endl`; always returns status 0. -/
def write_memory_bank_fabric_bitstream_to_text_file (fp : FileStream)
    (bits : List FabricBit) : FileStream × Nat :=
  ((build_memory_bank_fabric_bitstream_by_address bits).foldl (fun f g =>
      fsWrite f (g.1.1 ++ [' '] ++ g.1.2 ++ [' ']
        ++ g.2.map bitChar ++ ['\n'])) fp, 0)

/-- `write_frame_based_fabric_bitstream_to_text_file` (lines 180-200):
for each address/data pair, writes the address, a space, the data values,
then `std::endl`; always returns status 0. -/
def write_frame_based_fabric_bitstream_to_text_file (fp : FileStream)
    (bits : List FabricBit) : FileStream × Nat :=
  ((build_frame_based_fabric_bitstream_by_address bits).foldl (fun f g =>
      fsWrite f (g.1 ++ [' '] ++ g.2.map bitChar ++ ['\n'])) fp, 0)

/-- The `switch (config_protocol.type())` of lines 235-259: dispatches to
exactly one encoder; the `default:` arm sets status 1 without writing. -/
def routeEncoder (fp : FileStream) (bits : List FabricBit)
    (config_type : EConfigProtocolType) : FileStream × Nat :=
  match config_type with
  | .standalone =>
      write_flatten_fabric_bitstream_to_text_file fp bits config_type
  | .scanChain => write_config_chain_fabric_bitstream_to_text_file fp bits
  | .memoryBank => write_memory_bank_fabric_bitstream_to_text_file fp bits
  | .frameBased => write_frame_based_fabric_bitstream_to_text_file fp bits
  | .invalid => (fp, 1)

/-- Result of a top-level serializer call: whether the empty-file-name error
was logged, the returned status, and the destination content. -/
structure WriteResult where
  loggedEmptyName : Bool
  status : Nat
  content : List Char
  deriving DecidableEq, Repr

/-- `write_fabric_bitstream_to_text_file` (lines 214-274): logs an error when
`fname` is empty (without returning), opens the destination for truncating
write (`streamOk` models whether the open succeeded), dispatches on the
protocol type, appends one final `std::endl`, and returns the status.
`verbose` only gates a log line and touches neither status nor content. -/
def write_fabric_bitstream_to_text_file (bits : List FabricBit)
    (config_type : EConfigProtocolType) (fname : List Char)
    (streamOk : Bool) (verbose : Bool) : WriteResult :=
  let logged := fname.isEmpty
  let fp0 : FileStream := { valid := streamOk, content := [] }
  let r := routeEncoder fp0 bits config_type
  let fp2 := fsWrite r.1 ['\n']
  { loggedEmptyName := logged, status := r.2, content := fp2.content }

/-! ### Concrete fixtures (the spec's §8 examples) -/

/-- A completely valid, empty destination stream. -/
def fsEmptyValid : FileStream := ⟨true, []⟩

/-- §8 Standalone example: bits `[1,0,1,1]` (no addressing). -/
def exStandaloneBits : List FabricBit :=
  [⟨true, [], [], [], 0⟩, ⟨false, [], [], [], 0⟩,
   ⟨true, [], [], [], 0⟩, ⟨true, [], [], [], 0⟩]

/-- §8 ScanChain example: region 0 = `[1,0,1]`, region 1 = `[0,1]`. -/
def exScanBits : List FabricBit :=
  [⟨true, [], [], [], 0⟩, ⟨false, [], [], [], 0⟩, ⟨true, [], [], [], 0⟩,
   ⟨false, [], [], [], 1⟩, ⟨true, [], [], [], 1⟩]

/-- §8 MemoryBank example: two bits sharing BL=`01`, WL=`10`, values 1 then 0. -/
def exMemBits : List FabricBit :=
  [⟨true, ['0', '1'], ['1', '0'], [], 0⟩,
   ⟨false, ['0', '1'], ['1', '0'], [], 0⟩]

/-- §8 FrameBased example: one bit at address `101` with value 1. -/
def exFrameBits : List FabricBit := [⟨true, [], [], ['1', '0', '1'], 0⟩]

/-! ### Stream lemmas -/

theorem fsWrite_valid (fp : FileStream) (s : List Char) :
    (fsWrite fp s).valid = fp.valid := by
  unfold fsWrite; split <;> rfl

theorem fsWrite_nil (fp : FileStream) : fsWrite fp [] = fp := by
  unfold fsWrite; split <;> simp

theorem fsWrite_fsWrite (fp : FileStream) (a b : List Char) :
    fsWrite (fsWrite fp a) b = fsWrite fp (a ++ b) := by
  rcases fp with ⟨v, c⟩
  cases v <;> simp [fsWrite]

theorem fsWrite_content (fp : FileStream) (s : List Char)
    (h : fp.valid = true) : (fsWrite fp s).content = fp.content ++ s := by
  simp [fsWrite, h]

theorem foldl_fsWrite {α : Type} (p : α → List Char) :
    ∀ (l : List α) (fp : FileStream),
      l.foldl (fun g x => fsWrite g (p x)) fp = fsWrite fp (l.map p).flatten
  | [], fp => by simp [fsWrite_nil]
  | a :: l, fp => by
      simp only [List.foldl_cons, List.map_cons, List.flatten_cons]
      rw [foldl_fsWrite p l (fsWrite fp (p a)), fsWrite_fsWrite]

theorem flatten_map_singleton {α β : Type} (f : α → β) (l : List α) :
    (l.map (fun x => [f x])).flatten = l.map f := by
  induction l with
  | nil => rfl
  | cons a l ih => simp [ih]

/-! ### Encoder normal forms -/

theorem write_memory_bank_eq (fp : FileStream) (bits : List FabricBit) :
    write_memory_bank_fabric_bitstream_to_text_file fp bits =
      (fsWrite fp ((build_memory_bank_fabric_bitstream_by_address bits).map
        (fun g => g.1.1 ++ [' '] ++ g.1.2 ++ [' ']
          ++ g.2.map bitChar ++ ['\n'])).flatten, 0) := by
  unfold write_memory_bank_fabric_bitstream_to_text_file
  rw [foldl_fsWrite]

theorem write_frame_based_eq (fp : FileStream) (bits : List FabricBit) :
    write_frame_based_fabric_bitstream_to_text_file fp bits =
      (fsWrite fp ((build_frame_based_fabric_bitstream_by_address bits).map
        (fun g => g.1 ++ [' '] ++ g.2.map bitChar ++ ['\n'])).flatten, 0) := by
  unfold write_frame_based_fabric_bitstream_to_text_file
  rw [foldl_fsWrite]

theorem write_config_chain_eq (fp : FileStream) (bits : List FabricBit) :
    write_config_chain_fabric_bitstream_to_text_file fp bits =
      (fsWrite fp (((List.range (find_fabric_regional_bitstream_max_size bits)).map
        (fun i => (build_config_chain_fabric_bitstream_by_region bits).map
          (fun r => bitChar (r.getD i false)) ++ ['\n'])).flatten), 0) := by
  unfold write_config_chain_fabric_bitstream_to_text_file
  have hbody : (fun (f : FileStream) (i : Nat) =>
      fsWrite ((build_config_chain_fabric_bitstream_by_region bits).foldl
        (fun g r => fsWrite g [bitChar (r.getD i false)]) f) ['\n']) =
      (fun f i => fsWrite f ((build_config_chain_fabric_bitstream_by_region bits).map
        (fun r => bitChar (r.getD i false)) ++ ['\n'])) := by
    funext f i
    rw [foldl_fsWrite, fsWrite_fsWrite, flatten_map_singleton]
  rw [hbody, foldl_fsWrite]

theorem write_fabric_config_bit_standalone_eq (fp : FileStream) (b : FabricBit)
    (h : fp.valid = true) :
    write_fabric_config_bit_to_text_file fp b .standalone =
      (fsWrite fp [bitChar b.value], 0) := by
  simp [write_fabric_config_bit_to_text_file, h]

theorem write_flatten_standalone_eq :
    ∀ (bits : List FabricBit) (fp : FileStream), fp.valid = true →
      write_flatten_fabric_bitstream_to_text_file fp bits .standalone =
        (fsWrite fp (bits.map (fun b => bitChar b.value)), 0)
  | [], fp, h => by
      simp [write_flatten_fabric_bitstream_to_text_file, fsWrite_nil]
  | b :: rest, fp, h => by
      rw [write_flatten_fabric_bitstream_to_text_file,
        write_fabric_config_bit_standalone_eq fp b h]
      simp only [List.map_cons]
      rw [if_neg (by simp)]
      rw [write_flatten_standalone_eq rest (fsWrite fp [bitChar b.value])
        (by rw [fsWrite_valid]; exact h)]
      rw [fsWrite_fsWrite]
      rfl

/-! ### Validity preservation -/

theorem write_fabric_config_bit_valid (fp : FileStream) (b : FabricBit)
    (t : EConfigProtocolType) :
    (write_fabric_config_bit_to_text_file fp b t).1.valid = fp.valid := by
  unfold write_fabric_config_bit_to_text_file
  split
  · rfl
  · cases t <;> simp [fsWrite_valid]

theorem write_flatten_valid :
    ∀ (bits : List FabricBit) (fp : FileStream) (t : EConfigProtocolType),
      (write_flatten_fabric_bitstream_to_text_file fp bits t).1.valid = fp.valid
  | [], _, _ => rfl
  | b :: rest, fp, t => by
      rw [write_flatten_fabric_bitstream_to_text_file]
      split
      · exact write_fabric_config_bit_valid fp b t
      · rw [write_flatten_valid rest _ t, write_fabric_config_bit_valid]

theorem routeEncoder_valid (fp : FileStream) (bits : List FabricBit)
    (t : EConfigProtocolType) : (routeEncoder fp bits t).1.valid = fp.valid := by
  cases t with
  | standalone => exact write_flatten_valid bits fp .standalone
  | scanChain => rw [routeEncoder, write_config_chain_eq]; exact fsWrite_valid _ _
  | memoryBank => rw [routeEncoder, write_memory_bank_eq]; exact fsWrite_valid _ _
  | frameBased => rw [routeEncoder, write_frame_based_eq]; exact fsWrite_valid _ _
  | invalid => rfl

/-! ### Claim theorems -/

/-- C2: for the MemoryBank and FrameBased protocols, every emitted line is the
key component(s) as raw address character sequences separated by a single
space, then a single space, then the group's data values concatenated with no
separator, then a line terminator; for the two-part MemoryBank key the BL
address precedes the WL address. -/
theorem memoryBank_frameBased_line_format (fp : FileStream)
    (bits : List FabricBit) (h : fp.valid = true) :
    (write_memory_bank_fabric_bitstream_to_text_file fp bits).1.content =
      fp.content ++ ((build_memory_bank_fabric_bitstream_by_address bits).map
        (fun g => g.1.1 ++ [' '] ++ g.1.2 ++ [' ']
          ++ g.2.map bitChar ++ ['\n'])).flatten
    ∧ (write_frame_based_fabric_bitstream_to_text_file fp bits).1.content =
      fp.content ++ ((build_frame_based_fabric_bitstream_by_address bits).map
        (fun g => g.1 ++ [' '] ++ g.2.map bitChar ++ ['\n'])).flatten := by
  constructor
  · rw [write_memory_bank_eq]; exact fsWrite_content _ _ h
  · rw [write_frame_based_eq]; exact fsWrite_content _ _ h

/-- Witness for C2 at the spec's §8 examples: the MemoryBank example emits the
single line `01 10 10` and the FrameBased example the single line `101 1`. -/
theorem memoryBank_frameBased_line_format_witness :
    (write_memory_bank_fabric_bitstream_to_text_file fsEmptyValid
        exMemBits).1.content = ['0', '1', ' ', '1', '0', ' ', '1', '0', '\n']
    ∧ (write_frame_based_fabric_bitstream_to_text_file fsEmptyValid
        exFrameBits).1.content = ['1', '0', '1', ' ', '1', '\n'] :=
  ⟨((memoryBank_frameBased_line_format fsEmptyValid exMemBits rfl).1).trans
      (by decide),
   ((memoryBank_frameBased_line_format fsEmptyValid exFrameBits rfl).2).trans
      (by decide)⟩

/-- C3: for the Standalone protocol the structured content written is the
textual digit of every bit's value, in source order, concatenated with no
delimiter of any kind, and the encoder returns status 0. -/
theorem standalone_unbroken_digit_string (fp : FileStream)
    (bits : List FabricBit) (h : fp.valid = true) :
    (write_flatten_fabric_bitstream_to_text_file fp bits
        .standalone).1.content =
      fp.content ++ bits.map (fun b => bitChar b.value)
    ∧ (write_flatten_fabric_bitstream_to_text_file fp bits
        .standalone).2 = 0 := by
  rw [write_flatten_standalone_eq bits fp h]
  exact ⟨fsWrite_content _ _ h, rfl⟩

/-- Witness for C3 at the spec's §8 Standalone example: bits `[1,0,1,1]`
produce exactly the digit string `1011`. -/
theorem standalone_unbroken_digit_string_witness :
    (write_flatten_fabric_bitstream_to_text_file fsEmptyValid exStandaloneBits
        .standalone).1.content = ['1', '0', '1', '1'] :=
  ((standalone_unbroken_digit_string fsEmptyValid exStandaloneBits rfl).1).trans
    (by decide)

/-- C5: for every protocol kind, after the routed encoder's structured content
the serializer appends exactly one line terminator (the spec's "trailing blank
line", cf. its own Standalone example `1011` + blank line): the destination
content is the encoder's content followed by exactly one `'\n'`. -/
theorem trailing_blank_line (bits : List FabricBit) (t : EConfigProtocolType)
    (fname : List Char) (streamOk verbose : Bool) (h : streamOk = true) :
    (write_fabric_bitstream_to_text_file bits t fname streamOk
        verbose).content =
      (routeEncoder ⟨true, []⟩ bits t).1.content ++ ['\n'] := by
  subst h
  show (fsWrite (routeEncoder ⟨true, []⟩ bits t).1 ['\n']).content = _
  exact fsWrite_content _ _ (by rw [routeEncoder_valid])

/-- Witness for C5 at the spec's §8 Standalone example: bits `[1,0,1,1]` yield
destination content exactly `1011` followed by the single terminator. -/
theorem trailing_blank_line_witness :
    (write_fabric_bitstream_to_text_file exStandaloneBits .standalone
        ['f'] true false).content = ['1', '0', '1', '1', '\n'] :=
  (trailing_blank_line exStandaloneBits .standalone ['f'] true false
    rfl).trans (by decide)

/-- C6: an unrecognized protocol kind invokes no encoder: the returned status
is 1 and the destination holds no structured content (only the final
terminator written by the orchestration, nothing if the open failed). -/
theorem invalid_kind_status_one_no_content (bits : List FabricBit)
    (fname : List Char) (streamOk verbose : Bool) :
    (write_fabric_bitstream_to_text_file bits .invalid fname streamOk
        verbose).status = 1
    ∧ (write_fabric_bitstream_to_text_file bits .invalid fname streamOk
        verbose).content = if streamOk then ['\n'] else [] := by
  cases streamOk <;> exact ⟨rfl, rfl⟩

/-- C7: an empty destination name is reported (logged) but does not by itself
halt the call: status and content are the same as with any other name, and an
empty name alone does not force status 1 (a concrete empty-name call returns
status 0). -/
theorem empty_name_logged_not_fatal (bits : List FabricBit)
    (t : EConfigProtocolType) (fname : List Char) (streamOk verbose : Bool) :
    (write_fabric_bitstream_to_text_file bits t fname streamOk
        verbose).loggedEmptyName = fname.isEmpty
    ∧ (write_fabric_bitstream_to_text_file bits t fname streamOk
        verbose).status =
      (write_fabric_bitstream_to_text_file bits t [] streamOk verbose).status
    ∧ (write_fabric_bitstream_to_text_file bits t fname streamOk
        verbose).content =
      (write_fabric_bitstream_to_text_file bits t [] streamOk verbose).content
    ∧ (write_fabric_bitstream_to_text_file [] .standalone [] true
        true).status = 0 :=
  ⟨rfl, rfl, rfl, rfl⟩

/-- C9: the serializer is deterministic — for a fixed bit source, protocol
kind, stream state and verbosity, invocations against two destination names
produce byte-identical destination content. -/
theorem serializer_deterministic (bits : List FabricBit)
    (t : EConfigProtocolType) (fname1 fname2 : List Char)
    (streamOk verbose : Bool) :
    (write_fabric_bitstream_to_text_file bits t fname1 streamOk
        verbose).content =
      (write_fabric_bitstream_to_text_file bits t fname2 streamOk
        verbose).content := rfl

/-- C10: the ScanChain, MemoryBank and FrameBased encoders return status 0 for
every input, whatever the stream's validity; only the Standalone (flatten)
path checks the stream and can return 1 (it does on an invalid stream with a
non-empty source), so for a recognized kind a returned status of 1 implies
the Standalone path was taken. -/
theorem only_standalone_path_fails (fp : FileStream) (bits : List FabricBit)
    (t : EConfigProtocolType) (fname : List Char) (streamOk verbose : Bool) :
    (write_config_chain_fabric_bitstream_to_text_file fp bits).2 = 0
    ∧ (write_memory_bank_fabric_bitstream_to_text_file fp bits).2 = 0
    ∧ (write_frame_based_fabric_bitstream_to_text_file fp bits).2 = 0
    ∧ (fp.valid = false → bits ≠ [] →
        (write_flatten_fabric_bitstream_to_text_file fp bits
          .standalone).2 = 1)
    ∧ (t ≠ .invalid →
        (write_fabric_bitstream_to_text_file bits t fname streamOk
          verbose).status = 1 → t = .standalone) := by
  refine ⟨rfl, rfl, rfl, ?_, ?_⟩
  · intro hv hb
    match bits with
    | [] => exact absurd rfl hb
    | b :: rest =>
        rw [write_flatten_fabric_bitstream_to_text_file,
          show write_fabric_config_bit_to_text_file fp b .standalone =
              (fp, 1) from by
            simp [write_fabric_config_bit_to_text_file, hv]]
        rfl
  · intro hne hst
    cases t with
    | standalone => rfl
    | invalid => exact absurd rfl hne
    | scanChain => exact absurd (show (0 : Nat) = 1 from hst) (by decide)
    | memoryBank => exact absurd (show (0 : Nat) = 1 from hst) (by decide)
    | frameBased => exact absurd (show (0 : Nat) = 1 from hst) (by decide)

/-- Witness for C10: the chain encoder returns 0 even on an invalid stream,
the flatten encoder returns 1 there, and the implication instantiates at the
Standalone kind. -/
theorem only_standalone_path_fails_witness :
    (write_config_chain_fabric_bitstream_to_text_file ⟨false, []⟩
        exStandaloneBits).2 = 0
    ∧ (write_flatten_fabric_bitstream_to_text_file ⟨false, []⟩
        exStandaloneBits .standalone).2 = 1
    ∧ EConfigProtocolType.standalone = .standalone :=
  ⟨(only_standalone_path_fails ⟨false, []⟩ exStandaloneBits .standalone
      ['f'] false true).1,
   (only_standalone_path_fails ⟨false, []⟩ exStandaloneBits .standalone
      ['f'] false true).2.2.2.1 rfl (by decide),
   (only_standalone_path_fails ⟨false, []⟩ exStandaloneBits .standalone
      ['f'] false true).2.2.2.2 (by decide) (by decide)⟩

/-! ### Arithmetic helpers for the chain encoder -/

theorem init_le_foldl_max :
    ∀ (l : List Nat) (init : Nat), init ≤ l.foldl max init
  | [], _ => Nat.le_refl _
  | b :: l, init =>
      Nat.le_trans (Nat.le_max_left init b) (init_le_foldl_max l (max init b))

theorem le_foldl_max :
    ∀ (l : List Nat) (init a : Nat), a ∈ l → a ≤ l.foldl max init
  | b :: l, init, a, h => by
      rcases List.mem_cons.mp h with h | h
      · subst h
        exact Nat.le_trans (Nat.le_max_right init a)
          (init_le_foldl_max l (max init a))
      · exact le_foldl_max l (max init b) a h

theorem region_padded_length (bits : List FabricBit) :
    ∀ r ∈ build_config_chain_fabric_bitstream_by_region bits,
      r.length = find_fabric_regional_bitstream_max_size bits := by
  intro r hr
  simp only [build_config_chain_fabric_bitstream_by_region, List.mem_map] at hr
  obtain ⟨rid, hrid, rfl⟩ := hr
  have hle : ((bits.filter (fun b => b.region = rid)).map
      (fun b => b.value)).length ≤
      find_fabric_regional_bitstream_max_size bits := by
    rw [List.length_map]
    exact le_foldl_max _ 0 _
      (List.mem_map_of_mem (fun r => (bits.filter
        (fun b => b.region = r)).length) hrid)
  simp only [List.length_append, List.length_replicate]
  omega

theorem count_newline_chain_lines (bits : List FabricBit) :
    ((((List.range (find_fabric_regional_bitstream_max_size bits)).map
      (fun i => (build_config_chain_fabric_bitstream_by_region bits).map
        (fun r => bitChar (r.getD i false)) ++ ['\n'])).flatten).count '\n') =
    find_fabric_regional_bitstream_max_size bits := by
  rw [List.count_flatten, List.map_map]
  rw [List.map_congr_left (g := fun _ => 1) ?_]
  · simp
  · intro i _
    simp only [Function.comp_apply, List.count_append]
    rw [show (((build_config_chain_fabric_bitstream_by_region bits).map
        (fun r => bitChar (r.getD i false))).count '\n') = 0 from ?_]
    · rfl
    · rw [List.count_eq_zero]
      intro hmem
      rw [List.mem_map] at hmem
      obtain ⟨r, _, hr⟩ := hmem
      revert hr
      unfold bitChar
      split <;> decide

/-- C1: the ScanChain encoder emits exactly `maxLen` lines, `maxLen` being the
length of the longest region (equivalently, of every region after padding):
line `i` is the `i`-th character of every region in region order with no
separator, followed by one line terminator, so the line count equals
`maxLen`, not the total bit count. -/
theorem scanChain_transposed_maxLen_lines (fp : FileStream)
    (bits : List FabricBit) (h : fp.valid = true) :
    (write_config_chain_fabric_bitstream_to_text_file fp bits).1.content =
      fp.content ++
        (((List.range (find_fabric_regional_bitstream_max_size bits)).map
          (fun i => (build_config_chain_fabric_bitstream_by_region bits).map
            (fun r => bitChar (r.getD i false)) ++ ['\n'])).flatten)
    ∧ ((((List.range (find_fabric_regional_bitstream_max_size bits)).map
          (fun i => (build_config_chain_fabric_bitstream_by_region bits).map
            (fun r => bitChar (r.getD i false)) ++ ['\n'])).flatten).count '\n')
        = find_fabric_regional_bitstream_max_size bits
    ∧ ∀ r ∈ build_config_chain_fabric_bitstream_by_region bits,
        r.length = find_fabric_regional_bitstream_max_size bits := by
  refine ⟨?_, count_newline_chain_lines bits, region_padded_length bits⟩
  rw [write_config_chain_eq]
  exact fsWrite_content _ _ h

/-- Witness for C1 at the spec's §8 ScanChain example: region 0 = `[1,0,1]`,
region 1 = `[0,1]` padded to `[0,1,0]`, giving the three lines `10`, `01`,
`10`. -/
theorem scanChain_transposed_maxLen_lines_witness :
    (write_config_chain_fabric_bitstream_to_text_file fsEmptyValid
        exScanBits).1.content =
      ['1', '0', '\n', '0', '1', '\n', '1', '0', '\n'] :=
  ((scanChain_transposed_maxLen_lines fsEmptyValid exScanBits rfl).1).trans
    (by decide)

/-! ### Association-list lemmas for the address-keyed builders -/

theorem map_fst_insertGrouped {κ : Type} [DecidableEq κ] :
    ∀ (acc : List (κ × List Bool)) (k : κ) (v : Bool),
      (insertGrouped acc k v).map Prod.fst =
        if k ∈ acc.map Prod.fst then acc.map Prod.fst
        else acc.map Prod.fst ++ [k]
  | [], k, v => by simp [insertGrouped]
  | (k0, vs) :: rest, k, v => by
      by_cases hk : k0 = k
      · subst hk
        simp [insertGrouped]
      · rw [insertGrouped, if_neg hk]
        simp only [List.map_cons, map_fst_insertGrouped rest k v]
        by_cases hmem : k ∈ rest.map Prod.fst
        · rw [if_pos hmem, if_pos (List.mem_cons_of_mem _ hmem)]
        · rw [if_neg hmem, if_neg ?_, List.cons_append]
          simp only [List.mem_cons, not_or]
          exact ⟨fun hkk => hk hkk.symm, hmem⟩

theorem map_fst_foldl_insertGrouped {κ : Type} [DecidableEq κ]
    (key : FabricBit → κ) :
    ∀ (l : List FabricBit) (acc : List (κ × List Bool)),
      (l.foldl (fun a b => insertGrouped a (key b) b.value) acc).map Prod.fst =
        (l.map key).foldl
          (fun a k => if k ∈ a then a else a ++ [k]) (acc.map Prod.fst)
  | [], _ => rfl
  | b :: l, acc => by
      simp only [List.foldl_cons, List.map_cons]
      rw [map_fst_foldl_insertGrouped key l _, map_fst_insertGrouped]

/-- C4: the address groups of both address-keyed encoders are kept in the
order their keys were first encountered while scanning the bit source: the
group keys, in emission order, are exactly the distinct addresses (or BL/WL
pairs) in first-occurrence order. -/
theorem address_groups_first_encounter_order (bits : List FabricBit) :
    (build_memory_bank_fabric_bitstream_by_address bits).map Prod.fst =
      firstSeenKeys (bits.map (fun b => (b.blAddr, b.wlAddr)))
    ∧ (build_frame_based_fabric_bitstream_by_address bits).map Prod.fst =
      firstSeenKeys (bits.map (fun b => b.addr)) := by
  constructor
  · rw [build_memory_bank_fabric_bitstream_by_address,
      map_fst_foldl_insertGrouped (fun b => (b.blAddr, b.wlAddr)) bits []]
    rfl
  · rw [build_frame_based_fabric_bitstream_by_address,
      map_fst_foldl_insertGrouped (fun b => b.addr) bits []]
    rfl

/-- First-match lookup in an insertion-ordered association list. -/
def lookupGroup {κ : Type} [DecidableEq κ] :
    List (κ × List Bool) → κ → Option (List Bool)
  | [], _ => none
  | (k0, vs) :: rest, k => if k0 = k then some vs else lookupGroup rest k

/-- How one scan step extends a group map entry. -/
def combineGroup (o : Option (List Bool)) (vs : List Bool) :
    Option (List Bool) :=
  match o with
  | none => if vs = [] then none else some vs
  | some v0 => some (v0 ++ vs)

theorem combineGroup_nil (o : Option (List Bool)) : combineGroup o [] = o := by
  cases o <;> simp [combineGroup]

theorem combineGroup_push (o : Option (List Bool)) (v : Bool)
    (vs : List Bool) :
    combineGroup (some (o.getD [] ++ [v])) vs = combineGroup o (v :: vs) := by
  cases o <;> simp [combineGroup]

theorem lookupGroup_insertGrouped {κ : Type} [DecidableEq κ] :
    ∀ (acc : List (κ × List Bool)) (kb k : κ) (v : Bool),
      lookupGroup (insertGrouped acc kb v) k =
        if k = kb then some ((lookupGroup acc k).getD [] ++ [v])
        else lookupGroup acc k
  | [], kb, k, v => by
      by_cases hk : k = kb
      · subst hk; simp [insertGrouped, lookupGroup]
      · rw [if_neg hk]
        simp only [insertGrouped, lookupGroup]
        rw [if_neg (fun hkb => hk hkb.symm)]
  | (k0, vs) :: rest, kb, k, v => by
      rw [insertGrouped]
      by_cases hk0 : k0 = kb
      · subst hk0
        rw [if_pos rfl]
        by_cases hk : k0 = k
        · subst hk
          simp [lookupGroup]
        · have hk' : ¬(k = k0) := fun h => hk h.symm
          simp [lookupGroup, hk, hk']
      · rw [if_neg hk0]
        by_cases hk : k0 = k
        · subst hk
          simp [lookupGroup, hk0]
        · simp only [lookupGroup, if_neg hk]
          exact lookupGroup_insertGrouped rest kb k v

theorem lookupGroup_foldl {κ : Type} [DecidableEq κ] (key : FabricBit → κ) :
    ∀ (l : List FabricBit) (acc : List (κ × List Bool)) (k : κ),
      lookupGroup (l.foldl (fun a b => insertGrouped a (key b) b.value) acc) k
        = combineGroup (lookupGroup acc k)
            ((l.filter (fun b => key b = k)).map (fun b => b.value))
  | [], acc, k => by simp [combineGroup_nil]
  | b :: l, acc, k => by
      simp only [List.foldl_cons]
      rw [lookupGroup_foldl key l _ k, lookupGroup_insertGrouped]
      by_cases hb : key b = k
      · rw [if_pos hb.symm, combineGroup_push,
          List.filter_cons_of_pos (by simpa using hb), List.map_cons]
      · rw [if_neg (fun h => hb h.symm),
          List.filter_cons_of_neg (by simpa using hb)]

theorem nodup_foldl_firstSeen {κ : Type} [DecidableEq κ] :
    ∀ (ks : List κ) (acc : List κ), acc.Nodup →
      (ks.foldl (fun a k => if k ∈ a then a else a ++ [k]) acc).Nodup
  | [], _, h => h
  | k :: ks, acc, h => by
      simp only [List.foldl_cons]
      by_cases hmem : k ∈ acc
      · rw [if_pos hmem]
        exact nodup_foldl_firstSeen ks acc h
      · rw [if_neg hmem]
        exact nodup_foldl_firstSeen ks (acc ++ [k])
          (by simp [List.nodup_append, h, hmem])

theorem lookupGroup_eq_some_of_mem {κ : Type} [DecidableEq κ] :
    ∀ (l : List (κ × List Bool)), (l.map Prod.fst).Nodup →
      ∀ (k : κ) (vs : List Bool), (k, vs) ∈ l → lookupGroup l k = some vs
  | (k0, vs0) :: rest, hn, k, vs, hmem => by
      rcases List.mem_cons.mp hmem with h | h
      · obtain ⟨rfl, rfl⟩ := Prod.mk.injEq .. ▸ h
        simp [lookupGroup]
      · have hk0 : k0 ≠ k := by
          rintro rfl
          exact (List.nodup_cons.mp (by simpa using hn)).1
            (List.mem_map_of_mem Prod.fst h)
        rw [lookupGroup, if_neg hk0]
        exact lookupGroup_eq_some_of_mem rest
          (List.nodup_cons.mp (by simpa using hn)).2 k vs h

theorem values_eq_of_mem_build {κ : Type} [DecidableEq κ]
    (key : FabricBit → κ) (bits : List FabricBit) (k : κ) (vs : List Bool)
    (hmem : (k, vs) ∈
      bits.foldl (fun a b => insertGrouped a (key b) b.value) []) :
    vs = (bits.filter (fun b => key b = k)).map (fun b => b.value) := by
  have hn : ((bits.foldl
      (fun a b => insertGrouped a (key b) b.value) []).map Prod.fst).Nodup := by
    rw [map_fst_foldl_insertGrouped]
    exact nodup_foldl_firstSeen _ [] List.nodup_nil
  have hl := lookupGroup_eq_some_of_mem _ hn k vs hmem
  rw [lookupGroup_foldl key bits [] k] at hl
  by_cases hf : (bits.filter (fun b => key b = k)).map (fun b => b.value) = []
  · rw [hf] at hl
    simp [combineGroup, lookupGroup] at hl
  · simp only [combineGroup, lookupGroup, if_neg hf, Option.some.injEq] at hl
    exact hl.symm

/-- The §8 MemoryBank example with the two source bits inserted in the
opposite order (values 0 then 1). -/
def exMemBitsSwapped : List FabricBit :=
  [⟨false, ['0', '1'], ['1', '0'], [], 0⟩,
   ⟨true, ['0', '1'], ['1', '0'], [], 0⟩]

/-- C8: each address group's emitted data vector lists the contributing bits'
values in source-encounter order, never reordered or sorted: a group's vector
equals the values of exactly the source bits carrying its key, in source
order; and the two insertion orders of the shared-address example produce
different MemoryBank output. -/
theorem group_values_track_source_order (bits : List FabricBit)
    (k2 : List Char × List Char) (k1 : List Char) (vs : List Bool) :
    ((k2, vs) ∈ build_memory_bank_fabric_bitstream_by_address bits →
      vs = (bits.filter (fun b => (b.blAddr, b.wlAddr) = k2)).map
        (fun b => b.value))
    ∧ ((k1, vs) ∈ build_frame_based_fabric_bitstream_by_address bits →
      vs = (bits.filter (fun b => b.addr = k1)).map (fun b => b.value))
    ∧ (write_memory_bank_fabric_bitstream_to_text_file fsEmptyValid
        exMemBits).1.content ≠
      (write_memory_bank_fabric_bitstream_to_text_file fsEmptyValid
        exMemBitsSwapped).1.content := by
  refine ⟨?_, ?_, by decide⟩
  · exact fun h =>
      values_eq_of_mem_build (fun b => (b.blAddr, b.wlAddr)) bits k2 vs h
  · exact fun h => values_eq_of_mem_build (fun b => b.addr) bits k1 vs h

/-- Witness for C8 at the §8 MemoryBank example: the group at BL=`01`,
WL=`10` carries the values 1 then 0 in source order. -/
theorem group_values_track_source_order_witness :
    [true, false] =
      (exMemBits.filter
        (fun b => (b.blAddr, b.wlAddr) = (['0', '1'], ['1', '0']))).map
        (fun b => b.value) :=
  (group_values_track_source_order exMemBits (['0', '1'], ['1', '0']) []
    [true, false]).1 (by decide)

end OpenFPGA
